import Mathlib

/-!
Verification of the expiration subsystem of `src/idb-keyval.ts`.

The development shallowly embeds the canonical variant of the library
(`src/idb-keyval.ts`): IndexedDB object stores become association lists,
promise-returning operations become pure state transformers, and the
asynchronous settle/fail behaviour of `get`/`set` is modelled separately
by an `Outcome` type driven by explicit per-transaction failure flags.

The single-database model (`DB`, `get`, `set`, `del`, `sweepStep`,
`sweepPass`) corresponds to runs in which every operation targets stores
of one database, so that the module-level `expireStore` singleton of the
source is that database's `keysToExpire` store.  The multi-database
model (`Sys`, `setSys`) additionally models the module-level singleton
`expireStore` variable, which `getExpireStore(dbName)` creates on first
use and thereafter returns unchanged, ignoring its `dbName` argument.

Timestamps are naturals (seconds since epoch, `getCurrentTime()` in the
source); the current time is passed as an explicit `now` parameter.
-/

namespace IdbKeyval

/-- The `ExpireStoreItem` interface of the source.  `validUntil` is an
`Option` because the lazy check and the sweep both guard against records
lacking the field (`!fixedVal.validUntil`). -/
structure ExpireRecord where
  timestamp : Nat
  validUntil : Option Nat
  store : String
  key : String
deriving DecidableEq, Repr

/-- Values stored in a primary store: an opaque application payload, or
(when a store is read through the `keysToExpire` branch of `get`) an
expiration record. -/
inductive Value where
  | payload (data : String)
  | record (r : ExpireRecord)
deriving DecidableEq, Repr

/-- A primary object store's contents: association list from
(store name, key) to value. -/
abbrev PrimMap := List ((String × String) × Value)

/-- The `keysToExpire` object store's contents: association list from
composite key to `ExpireRecord` (the source types its values as
`ExpireStoreItem`). -/
abbrev IndexMap := List (String × ExpireRecord)

def lookupPrim : PrimMap → String → String → Option Value
  | [], _, _ => none
  | ((s0, k0), v) :: rest, s, k =>
    if s0 = s ∧ k0 = k then some v else lookupPrim rest s k

def erasePrim : PrimMap → String → String → PrimMap
  | [], _, _ => []
  | ((s0, k0), v) :: rest, s, k =>
    if s0 = s ∧ k0 = k then erasePrim rest s k
    else ((s0, k0), v) :: erasePrim rest s k

def putPrim (m : PrimMap) (s k : String) (v : Value) : PrimMap :=
  ((s, k), v) :: erasePrim m s k

def lookupIdx : IndexMap → String → Option ExpireRecord
  | [], _ => none
  | (k0, r) :: rest, k => if k0 = k then some r else lookupIdx rest k

def eraseIdx : IndexMap → String → IndexMap
  | [], _ => []
  | (k0, r) :: rest, k =>
    if k0 = k then eraseIdx rest k else (k0, r) :: eraseIdx rest k

def putIdx (m : IndexMap) (k : String) (r : ExpireRecord) : IndexMap :=
  (k, r) :: eraseIdx m k

/-- One database: its primary stores plus its `keysToExpire` store. -/
structure DB where
  prim : PrimMap
  index : IndexMap
deriving DecidableEq, Repr

def DB.empty : DB := ⟨[], []⟩

/-- The composite key `storeName + '_' + key` used by `get` and `set`. -/
def compositeKey (storeName key : String) : String :=
  storeName ++ "_" ++ key

/-- The expiry test `fixedVal && (!fixedVal.validUntil || fixedVal.validUntil < ts)`
applied to a present record.  In JavaScript `!fixedVal.validUntil` is true
when `validUntil` is `undefined` (here `none`) and also when it is the
falsy number `0`. -/
def isExpiredAt (r : ExpireRecord) (ts : Nat) : Bool :=
  match r.validUntil with
  | none => true
  | some v => decide (v = 0) || decide (v < ts)

/-- `del(key, store)`: deletes the key from the named store.  Dispatches
on the store name so that a `Store` handle on `keysToExpire` (such as the
`expireStore` singleton) erases from the index map. -/
def del (storeName key : String) (db : DB) : DB :=
  if storeName = "keysToExpire" then ⟨db.prim, eraseIdx db.index key⟩
  else ⟨erasePrim db.prim storeName key, db.index⟩

/-- `get(key, store)` of the source, all transactions succeeding, as a
result/state pair.  For a store other than `keysToExpire` it first reads
the composite-keyed record from the expire store; if present and expired
it issues `del(key, store)` and `del(storeName + '_' + key, expireStore)`
and resolves `undefined` after both, otherwise it resolves the direct
read of the target store.  For the `keysToExpire` store itself it is the
direct read. -/
def get (storeName key : String) (now : Nat) (db : DB) : Option Value × DB :=
  if storeName = "keysToExpire" then
    ((lookupIdx db.index key).map Value.record, db)
  else
    match lookupIdx db.index (compositeKey storeName key) with
    | some r =>
      if isExpiredAt r now then
        (none, del "keysToExpire" (compositeKey storeName key) (del storeName key db))
      else
        (lookupPrim db.prim storeName key, db)
    | none => (lookupPrim db.prim storeName key, db)

/-- `set(key, value, store, expire)` of the source, all transactions
succeeding: writes the value, then if `expire` is truthy (nonzero) writes
the `ExpireStoreItem` into the expire store under the composite key. -/
def set (storeName key : String) (value : Value) (expire now : Nat) (db : DB) : DB :=
  let db1 : DB := ⟨putPrim db.prim storeName key value, db.index⟩
  if expire ≠ 0 then
    ⟨db1.prim,
     putIdx db1.index (compositeKey storeName key)
       ⟨now, some (now + expire), storeName, key⟩⟩
  else db1

/-- `keys(expireStore)`: the keys currently present in the expire store. -/
def keysOfIndex (m : IndexMap) : List String := m.map (·.1)

/-- One iteration of the sweep's `for` loop body for index key `ck`:
`get(key, expireStore)` followed by, when the record is expired at the
pass's timestamp, `del(fixedVal.key, getStore(dbName, fixedVal.store))`
and `del(key, expireStore)`. -/
def sweepStep (now : Nat) (db : DB) (ck : String) : DB :=
  match lookupIdx db.index ck with
  | some r =>
    if isExpiredAt r now then del "keysToExpire" ck (del r.store r.key db)
    else db
  | none => db

/-- One pass of the `window.setInterval` sweep callback: enumerate the
expire store's keys, compute `ts = getCurrentTime()` once, and run the
loop body for each key. -/
def sweepPass (now : Nat) (db : DB) : DB :=
  (keysOfIndex db.index).foldl (sweepStep now) db

/-- The sweep timer period passed to `window.setInterval`: `60 * 1000`
milliseconds. -/
def sweepIntervalMs : Nat := 60 * 1000

/-- Settlement of a promise: resolved with a value, rejected, or never
settling (pending forever). -/
inductive Outcome (α : Type) where
  | resolved (val : α)
  | rejected
  | pending
deriving DecidableEq, Repr

/-- `get(key, store)` with the outcome of each underlying transaction
made explicit (`true` = that transaction aborts; an aborted transaction
leaves the store unchanged).  `fIdxRead` is the read of the composite key
from the expire store, `fTgtRead` the direct read of the target store,
`fTgtDel` / `fIdxDel` the two deletions of the expired path.

For a store other than `keysToExpire` the result promise is created with
`new Promise(...)` whose `reject` is never invoked, and every failure of
an inner chain leaves `resolve` uncalled: a failed expire-store read
aborts `expiredCheck` before its `.then`, a failed delete makes
`Promise.all([deletedPromise, deletedPromise2])` reject unhandled, and a
failed target read makes `p` reject unhandled — in each case the promise
never settles.  Only the direct `keysToExpire` branch returns the
transaction promise itself and hence can reject. -/
def getAsync (storeName key : String) (now : Nat) (db : DB)
    (fIdxRead fTgtRead fTgtDel fIdxDel : Bool) : Outcome (Option Value) × DB :=
  if storeName = "keysToExpire" then
    if fTgtRead then (.rejected, db)
    else (.resolved ((lookupIdx db.index key).map Value.record), db)
  else
    if fIdxRead then (.pending, db)
    else
      match lookupIdx db.index (compositeKey storeName key) with
      | some r =>
        if isExpiredAt r now then
          let prim1 := if fTgtDel then db.prim else erasePrim db.prim storeName key
          let idx1 := if fIdxDel then db.index
                      else eraseIdx db.index (compositeKey storeName key)
          if fTgtDel || fIdxDel then (.pending, ⟨prim1, idx1⟩)
          else (.resolved none, ⟨prim1, idx1⟩)
        else
          if fTgtRead then (.pending, db)
          else (.resolved (lookupPrim db.prim storeName key), db)
      | none =>
        if fTgtRead then (.pending, db)
        else (.resolved (lookupPrim db.prim storeName key), db)

/-- `set(key, value, store, expire)` with transaction outcomes explicit.
The returned promise is the value-store transaction's promise chained
with a callback that merely *issues* the expire-store write without
returning its promise: `set` rejects exactly when the value transaction
aborts, and resolves as soon as it commits, whether or not the
expire-store transaction later commits. -/
def setAsync (storeName key : String) (value : Value) (expire now : Nat) (db : DB)
    (fValTx fIdxTx : Bool) : Outcome Unit × DB :=
  if fValTx then (.rejected, db)
  else
    let db1 : DB := ⟨putPrim db.prim storeName key value, db.index⟩
    if expire ≠ 0 then
      if fIdxTx then (.resolved (), db1)
      else
        (.resolved (),
         ⟨db1.prim,
          putIdx db1.index (compositeKey storeName key)
            ⟨now, some (now + expire), storeName, key⟩⟩)
    else (.resolved (), db1)

/-- Multi-database state: the contents of every database, plus the
module-level `expireStore` singleton — `none` before `getExpireStore` has
ever run, otherwise the name of the database whose `keysToExpire` store
it wraps.  `getExpireStore(dbName)` assigns the singleton on first use
and afterwards returns it unchanged, ignoring its `dbName` argument. -/
structure Sys where
  dbs : String → DB
  expireDb : Option String

/-- `set` in the multi-database model: the value is written into the
named database's target store; when `expire` is nonzero the record is
written into the `keysToExpire` store of `getExpireStore(store.dbName)`,
which is the singleton's database — only on first use the caller's. -/
def setSys (dbName storeName key : String) (value : Value) (expire now : Nat)
    (sys : Sys) : Sys :=
  let dbs1 : String → DB := fun n =>
    if n = dbName then
      ⟨putPrim (sys.dbs dbName).prim storeName key value, (sys.dbs dbName).index⟩
    else sys.dbs n
  if expire ≠ 0 then
    let expDb := sys.expireDb.getD dbName
    ⟨fun n =>
       if n = expDb then
         ⟨(dbs1 expDb).prim,
          putIdx (dbs1 expDb).index (compositeKey storeName key)
            ⟨now, some (now + expire), storeName, key⟩⟩
       else dbs1 n,
     some expDb⟩
  else ⟨dbs1, sys.expireDb⟩


/-! ### Lemmas about the association-list store operations -/

theorem lookupIdx_eraseIdx (m : IndexMap) (k ck : String) :
    lookupIdx (eraseIdx m k) ck = if k = ck then none else lookupIdx m ck := by
  induction m with
  | nil => simp [eraseIdx, lookupIdx]
  | cons e rest ih =>
    obtain ⟨k0, r⟩ := e
    by_cases h0 : k0 = k <;> by_cases h1 : k = ck <;> by_cases h2 : k0 = ck <;>
      simp_all [eraseIdx, lookupIdx]

theorem lookupPrim_erasePrim (m : PrimMap) (s k s1 k1 : String) :
    lookupPrim (erasePrim m s k) s1 k1 =
      if s = s1 ∧ k = k1 then none else lookupPrim m s1 k1 := by
  induction m with
  | nil => simp [erasePrim, lookupPrim]
  | cons e rest ih =>
    obtain ⟨⟨s0, k0⟩, v⟩ := e
    simp only [erasePrim, lookupPrim]
    by_cases h0 : s0 = s ∧ k0 = k
    · rw [if_pos h0, ih]
      by_cases h1 : s = s1 ∧ k = k1
      · rw [if_pos h1, if_pos h1]
      · have h2 : ¬(s0 = s1 ∧ k0 = k1) := by
          rintro ⟨a, b⟩
          exact h1 ⟨h0.1.symm.trans a, h0.2.symm.trans b⟩
        rw [if_neg h1, if_neg h1, if_neg h2]
    · rw [if_neg h0]
      simp only [lookupPrim]
      by_cases h2 : s0 = s1 ∧ k0 = k1
      · have h1 : ¬(s = s1 ∧ k = k1) := by
          rintro ⟨a, b⟩
          exact h0 ⟨h2.1.trans a.symm, h2.2.trans b.symm⟩
        rw [if_pos h2, if_neg h1, if_pos h2]
      · rw [if_neg h2, ih]
        by_cases h1 : s = s1 ∧ k = k1
        · rw [if_pos h1, if_pos h1]
        · rw [if_neg h1, if_neg h1, if_neg h2]

theorem lookupIdx_mem_keys (m : IndexMap) (ck : String) (r : ExpireRecord)
    (h : lookupIdx m ck = some r) : ck ∈ keysOfIndex m := by
  induction m with
  | nil => simp [lookupIdx] at h
  | cons e rest ih =>
    obtain ⟨k0, r0⟩ := e
    by_cases h0 : k0 = ck <;> simp_all [lookupIdx, keysOfIndex]

/-! ### Lemmas about a single sweep iteration and a whole pass -/

theorem sweepStep_index_cases (now : Nat) (db : DB) (k ck : String) :
    lookupIdx (sweepStep now db k).index ck = none ∨
    lookupIdx (sweepStep now db k).index ck = lookupIdx db.index ck := by
  cases h : lookupIdx db.index k with
  | none => right; simp [sweepStep, h]
  | some r =>
    by_cases he : isExpiredAt r now = true
    · by_cases hs : r.store = "keysToExpire"
      · by_cases h1 : k = ck
        · subst h1; left; simp [sweepStep, h, he, del, hs, lookupIdx_eraseIdx]
        · by_cases h2 : r.key = ck
          · left; simp [sweepStep, h, he, del, hs, lookupIdx_eraseIdx, h1, h2]
          · right; simp [sweepStep, h, he, del, hs, lookupIdx_eraseIdx, h1, h2]
      · by_cases h1 : k = ck
        · subst h1; left; simp [sweepStep, h, he, del, hs, lookupIdx_eraseIdx]
        · right; simp [sweepStep, h, he, del, hs, lookupIdx_eraseIdx, h1]
    · right; simp [sweepStep, h, he]

theorem sweepStep_prim_cases (now : Nat) (db : DB) (k s1 k1 : String) :
    lookupPrim (sweepStep now db k).prim s1 k1 = none ∨
    lookupPrim (sweepStep now db k).prim s1 k1 = lookupPrim db.prim s1 k1 := by
  cases h : lookupIdx db.index k with
  | none => right; simp [sweepStep, h]
  | some r =>
    by_cases he : isExpiredAt r now = true
    · by_cases hs : r.store = "keysToExpire"
      · right; simp [sweepStep, h, he, del, hs]
      · by_cases h1 : r.store = s1 ∧ r.key = k1
        · obtain ⟨h1a, h1b⟩ := h1
          subst h1a; subst h1b
          left; simp [sweepStep, h, he, del, hs, lookupPrim_erasePrim]
        · right; simp [sweepStep, h, he, del, hs, lookupPrim_erasePrim, h1]
    · right; simp [sweepStep, h, he]

theorem sweepFold_index_none (now : Nat) (ck : String) :
    ∀ (ks : List String) (db : DB), lookupIdx db.index ck = none →
      lookupIdx (ks.foldl (sweepStep now) db).index ck = none := by
  intro ks
  induction ks with
  | nil => intro db h; exact h
  | cons k ks ih =>
    intro db h
    apply ih
    rcases sweepStep_index_cases now db k ck with h1 | h1
    · exact h1
    · rw [h1]; exact h

theorem sweepFold_prim_none (now : Nat) (s1 k1 : String) :
    ∀ (ks : List String) (db : DB), lookupPrim db.prim s1 k1 = none →
      lookupPrim (ks.foldl (sweepStep now) db).prim s1 k1 = none := by
  intro ks
  induction ks with
  | nil => intro db h; exact h
  | cons k ks ih =>
    intro db h
    apply ih
    rcases sweepStep_prim_cases now db k s1 k1 with h1 | h1
    · exact h1
    · rw [h1]; exact h

theorem sweepStep_safe (now : Nat) (db : DB) (k : String)
    (hsafe : ∀ ck1 r1, lookupIdx db.index ck1 = some r1 → r1.store ≠ "keysToExpire") :
    ∀ ck1 r1, lookupIdx (sweepStep now db k).index ck1 = some r1 →
      r1.store ≠ "keysToExpire" := by
  intro ck1 r1 h1
  rcases sweepStep_index_cases now db k ck1 with h2 | h2
  · rw [h2] at h1; cases h1
  · rw [h2] at h1; exact hsafe ck1 r1 h1

theorem sweepFold_keeps (now : Nat) (ck : String) (r : ExpireRecord)
    (he : isExpiredAt r now = false) :
    ∀ (ks : List String) (db : DB),
      (∀ ck1 r1, lookupIdx db.index ck1 = some r1 → r1.store ≠ "keysToExpire") →
      lookupIdx db.index ck = some r →
      lookupIdx (ks.foldl (sweepStep now) db).index ck = some r := by
  intro ks
  induction ks with
  | nil => intro db _ hr; exact hr
  | cons k ks ih =>
    intro db hsafe hr
    have hstep : lookupIdx (sweepStep now db k).index ck = some r := by
      cases h : lookupIdx db.index k with
      | none => simpa [sweepStep, h] using hr
      | some r1 =>
        by_cases he1 : isExpiredAt r1 now = true
        · have hs1 : r1.store ≠ "keysToExpire" := hsafe k r1 h
          have hkck : ¬ k = ck := by
            intro hkc
            rw [hkc, hr] at h
            injection h with h3
            rw [← h3] at he1
            exact absurd he1 (by simp [he])
          simpa [sweepStep, h, he1, del, hs1, lookupIdx_eraseIdx, hkck] using hr
        · simpa [sweepStep, h, he1] using hr
    exact ih (sweepStep now db k) (sweepStep_safe now db k hsafe) hstep

theorem sweepFold_removes (now : Nat) (ck : String) (r : ExpireRecord)
    (he : isExpiredAt r now = true) :
    ∀ (ks : List String) (db : DB),
      (∀ ck1 r1, lookupIdx db.index ck1 = some r1 → r1.store ≠ "keysToExpire") →
      ck ∈ ks → lookupIdx db.index ck = some r →
      lookupIdx (ks.foldl (sweepStep now) db).index ck = none ∧
      lookupPrim (ks.foldl (sweepStep now) db).prim r.store r.key = none := by
  intro ks
  induction ks with
  | nil => intro db _ hmem _; cases hmem
  | cons k ks ih =>
    intro db hsafe hmem hr
    by_cases hkck : k = ck
    · subst hkck
      have hs1 : r.store ≠ "keysToExpire" := hsafe k r hr
      have hstep1 : lookupIdx (sweepStep now db k).index k = none := by
        simp [sweepStep, hr, he, del, hs1, lookupIdx_eraseIdx]
      have hstep2 : lookupPrim (sweepStep now db k).prim r.store r.key = none := by
        simp [sweepStep, hr, he, del, hs1, lookupPrim_erasePrim]
      exact ⟨sweepFold_index_none now k ks (sweepStep now db k) hstep1,
             sweepFold_prim_none now r.store r.key ks (sweepStep now db k) hstep2⟩
    · have hmem2 : ck ∈ ks := by
        cases hmem with
        | head => exact absurd rfl hkck
        | tail _ h => exact h
      have hstep : lookupIdx (sweepStep now db k).index ck = some r := by
        cases h : lookupIdx db.index k with
        | none => simpa [sweepStep, h] using hr
        | some r1 =>
          by_cases he1 : isExpiredAt r1 now = true
          · have hs1 : r1.store ≠ "keysToExpire" := hsafe k r1 h
            simpa [sweepStep, h, he1, del, hs1, lookupIdx_eraseIdx, hkck] using hr
          · simpa [sweepStep, h, he1] using hr
      exact ih (sweepStep now db k) (sweepStep_safe now db k hsafe) hmem2 hstep

theorem sweepFold_prim_pres (now : Nat) (s k : String) :
    ∀ (ks : List String) (db : DB),
      (∀ ck1 r1, lookupIdx db.index ck1 = some r1 → ¬(r1.store = s ∧ r1.key = k)) →
      lookupPrim (ks.foldl (sweepStep now) db).prim s k = lookupPrim db.prim s k := by
  intro ks
  induction ks with
  | nil => intro db _; rfl
  | cons k1 ks ih =>
    intro db hnoref
    have hstep : lookupPrim (sweepStep now db k1).prim s k = lookupPrim db.prim s k := by
      cases h : lookupIdx db.index k1 with
      | none => simp [sweepStep, h]
      | some r1 =>
        by_cases he1 : isExpiredAt r1 now = true
        · by_cases hs : r1.store = "keysToExpire"
          · simp [sweepStep, h, he1, del, hs]
          · simp [sweepStep, h, he1, del, hs, lookupPrim_erasePrim, hnoref k1 r1 h]
        · simp [sweepStep, h, he1]
    have hnoref2 : ∀ ck1 r1, lookupIdx (sweepStep now db k1).index ck1 = some r1 →
        ¬(r1.store = s ∧ r1.key = k) := by
      intro ck1 r1 h1
      rcases sweepStep_index_cases now db k1 ck1 with h2 | h2
      · rw [h2] at h1; cases h1
      · rw [h2] at h1; exact hnoref ck1 r1 h1
    rw [show (k1 :: ks).foldl (sweepStep now) db = ks.foldl (sweepStep now) (sweepStep now db k1) from rfl]
    rw [ih (sweepStep now db k1) hnoref2, hstep]

/-! ### Concrete database fixtures used by witnesses and counterexamples -/

/-- A store `"s"` holding `"k" ↦ "v"` with a live record (validUntil 105). -/
def dbW : DB := ⟨[(("s", "k"), Value.payload "v")], [("s_k", ⟨100, some 105, "s", "k"⟩)]⟩

/-- A store `"s"` holding `"k" ↦ "v"` with an expired record (validUntil 2). -/
def dbX : DB := ⟨[(("s", "k"), Value.payload "v")], [("s_k", ⟨1, some 2, "s", "k"⟩)]⟩

/-- A store `"s"` holding `"k" ↦ "v"` with a record whose present
validUntil is the falsy number 0. -/
def dbZ : DB := ⟨[(("s", "k"), Value.payload "v")], [("s_k", ⟨0, some 0, "s", "k"⟩)]⟩

/-- A store `"s"` holding `"k" ↦ "v"` with a record lacking validUntil. -/
def db4 : DB := ⟨[(("s", "k"), Value.payload "v")], [("s_k", ⟨50, none, "s", "k"⟩)]⟩

/-- The database produced by `set("k","v1",s,5)` at time 100 followed by
`set("k","v2",s,0)` at time 101. -/
def db5 : DB :=
  set "s" "k" (Value.payload "v2") 0 101 (set "s" "k" (Value.payload "v1") 5 100 DB.empty)

/-- Two tracked keys: `"k1"` expired at time 10, `"k2"` still live. -/
def dbS : DB :=
  ⟨[(("s", "k1"), Value.payload "a"), (("s", "k2"), Value.payload "b")],
   [("s_k1", ⟨1, some 2, "s", "k1"⟩), ("s_k2", ⟨1, some 999, "s", "k2"⟩)]⟩

/-! ### Claims -/

/-- C2: every `set(key, value, store, ttl)` writes the value at the key in
the target store (unconditional overwrite); when `ttl > 0` an ExpireRecord
`{timestamp = now, validUntil = now + ttl, store = store name, key = key}`
is then written into the Expire Index under the composite key
`storeName + "_" + key`; when `ttl = 0` no Expire Index write occurs. -/
theorem c2_set_writes (s k : String) (v : Value) (ttl now : Nat) (db : DB) :
    lookupPrim (set s k v ttl now db).prim s k = some v
    ∧ (0 < ttl →
        lookupIdx (set s k v ttl now db).index (compositeKey s k) =
          some ⟨now, some (now + ttl), s, k⟩)
    ∧ (ttl = 0 → (set s k v ttl now db).index = db.index) := by
  refine ⟨?_, ?_, ?_⟩
  · by_cases h : ttl = 0 <;> simp [set, h, putPrim, lookupPrim]
  · intro h
    have h0 : ttl ≠ 0 := Nat.pos_iff_ne_zero.mp h
    simp [set, h0, putIdx, lookupIdx]
  · intro h
    simp [set, h]

theorem c2_set_writes_witness :
    lookupPrim (set "s" "k" (Value.payload "v") 5 100 DB.empty).prim "s" "k"
      = some (Value.payload "v")
    ∧ lookupIdx (set "s" "k" (Value.payload "v") 5 100 DB.empty).index
        (compositeKey "s" "k") = some ⟨100, some (100 + 5), "s", "k"⟩
    ∧ (set "s" "k" (Value.payload "v") 0 100 DB.empty).index = DB.empty.index :=
  ⟨(c2_set_writes "s" "k" (Value.payload "v") 5 100 DB.empty).1,
   (c2_set_writes "s" "k" (Value.payload "v") 5 100 DB.empty).2.1 (by decide),
   (c2_set_writes "s" "k" (Value.payload "v") 0 100 DB.empty).2.2 rfl⟩

/-- C4: an ExpireRecord whose `validUntil` is missing is treated as
expired by both the lazy read path and the sweep, at every current time:
the referenced entry and the record itself are deleted rather than an
error being raised. -/
theorem c4_missing_validuntil (s k ck : String) (now : Nat) (db : DB) (r : ExpireRecord)
    (hs : s ≠ "keysToExpire") :
    (lookupIdx db.index (compositeKey s k) = some r → r.validUntil = none →
      (get s k now db).1 = none
      ∧ lookupIdx (get s k now db).2.index (compositeKey s k) = none
      ∧ lookupPrim (get s k now db).2.prim s k = none)
    ∧ (lookupIdx db.index ck = some r → r.validUntil = none →
        r.store ≠ "keysToExpire" →
        lookupIdx (sweepStep now db ck).index ck = none
        ∧ lookupPrim (sweepStep now db ck).prim r.store r.key = none) := by
  constructor
  · intro hr hv
    have he : isExpiredAt r now = true := by simp [isExpiredAt, hv]
    refine ⟨?_, ?_, ?_⟩ <;>
      simp [get, hs, hr, he, del, lookupIdx_eraseIdx, lookupPrim_erasePrim]
  · intro hr hv hsr
    have he : isExpiredAt r now = true := by simp [isExpiredAt, hv]
    constructor
    · simp [sweepStep, hr, he, del, hsr, lookupIdx_eraseIdx]
    · simp [sweepStep, hr, he, del, hsr, lookupPrim_erasePrim]

theorem c4_missing_validuntil_witness :
    ((get "s" "k" 0 db4).1 = none
     ∧ lookupIdx (get "s" "k" 0 db4).2.index (compositeKey "s" "k") = none
     ∧ lookupPrim (get "s" "k" 0 db4).2.prim "s" "k" = none)
    ∧ (lookupIdx (sweepStep 0 db4 "s_k").index "s_k" = none
       ∧ lookupPrim (sweepStep 0 db4 "s_k").prim "s" "k" = none) :=
  have h := c4_missing_validuntil "s" "k" "s_k" 0 db4 ⟨50, none, "s", "k"⟩ (by decide)
  ⟨h.1 (by decide) rfl, h.2 (by decide) rfl (by decide)⟩

/-- C8: reads that are not expired reads are transparent: a `get` whose
target store is the Expire Index itself is a direct read (no expiry
check, no recursion); a `get` whose composite key has no record, or a
record the expiry check classifies as not expired, returns the directly
stored value unmodified and performs no deletion in either store. -/
theorem c8_transparent (s k : String) (now : Nat) (db : DB) :
    get "keysToExpire" k now db = ((lookupIdx db.index k).map Value.record, db)
    ∧ (s ≠ "keysToExpire" → lookupIdx db.index (compositeKey s k) = none →
        get s k now db = (lookupPrim db.prim s k, db))
    ∧ (∀ r, s ≠ "keysToExpire" → lookupIdx db.index (compositeKey s k) = some r →
        isExpiredAt r now = false →
        get s k now db = (lookupPrim db.prim s k, db)) := by
  refine ⟨by simp [get], ?_, ?_⟩
  · intro hs hn
    simp [get, hs, hn]
  · intro r hs hr he
    simp [get, hs, hr, he]

theorem c8_transparent_witness :
    get "keysToExpire" "s_k" 105 dbW
      = (some (Value.record ⟨100, some 105, "s", "k"⟩), dbW)
    ∧ get "s" "j" 105 dbW = (none, dbW)
    ∧ get "s" "k" 105 dbW = (some (Value.payload "v"), dbW) :=
  ⟨(c8_transparent "s" "s_k" 105 dbW).1,
   (c8_transparent "s" "j" 105 dbW).2.1 (by decide) (by decide),
   (c8_transparent "s" "k" 105 dbW).2.2 ⟨100, some 105, "s", "k"⟩ (by decide)
     (by decide) (by decide)⟩

/-- C10: `set` with positive TTL resolves as soon as the value-store
transaction commits; the Expire Index write is issued but not awaited,
so the outcome is `resolved` whether or not the index transaction fails,
and a failed index transaction leaves the index unchanged while staying
invisible to the caller. -/
theorem c10_set_not_awaiting_index (s k : String) (v : Value) (ttl now : Nat)
    (db : DB) (fIdx : Bool) (httl : 0 < ttl) :
    (setAsync s k v ttl now db false fIdx).1 = Outcome.resolved ()
    ∧ (setAsync s k v ttl now db false fIdx).2.prim = putPrim db.prim s k v
    ∧ (fIdx = true → (setAsync s k v ttl now db false fIdx).2.index = db.index) := by
  have h0 : ttl ≠ 0 := by omega
  refine ⟨?_, ?_, ?_⟩ <;> cases fIdx <;> simp [setAsync, h0]

theorem c10_set_not_awaiting_index_witness :
    (setAsync "s" "k" (Value.payload "v") 5 100 DB.empty false true).1
      = Outcome.resolved ()
    ∧ (setAsync "s" "k" (Value.payload "v") 5 100 DB.empty false true).2.prim
      = putPrim DB.empty.prim "s" "k" (Value.payload "v")
    ∧ (setAsync "s" "k" (Value.payload "v") 5 100 DB.empty false true).2.index
      = DB.empty.index :=
  have h := c10_set_not_awaiting_index "s" "k" (Value.payload "v") 5 100 DB.empty true
    (by decide)
  ⟨h.1, h.2.1, h.2.2 rfl⟩

/-- C1: a `get` on a store other than the Expire Index whose
composite-keyed record exists and is expired (`validUntil` absent or
`validUntil < now`) issues a deletion of the key in the target store and
of the composite key in the Expire Index, resolves only after both
deletions have completed, and resolves to absent regardless of whether a
value was present in the target store. -/
theorem c1_expired_get (s k : String) (now : Nat) (db : DB) (r : ExpireRecord)
    (hs : s ≠ "keysToExpire")
    (hr : lookupIdx db.index (compositeKey s k) = some r)
    (hexp : r.validUntil = none ∨ ∃ v, r.validUntil = some v ∧ v < now) :
    getAsync s k now db false false false false
      = (Outcome.resolved none,
         ⟨erasePrim db.prim s k, eraseIdx db.index (compositeKey s k)⟩)
    ∧ (∀ fTgtDel fIdxDel, (getAsync s k now db false false fTgtDel fIdxDel).1
          = Outcome.resolved none → fTgtDel = false ∧ fIdxDel = false) := by
  have he : isExpiredAt r now = true := by
    rcases hexp with h | ⟨v, hv, hlt⟩
    · simp [isExpiredAt, h]
    · simp [isExpiredAt, hv]
      exact Or.inr hlt
  constructor
  · simp [getAsync, hs, hr, he]
  · intro f3 f4 hres
    cases f3 <;> cases f4 <;> simp_all [getAsync, hs, hr, he]

theorem c1_expired_get_witness :
    getAsync "s" "k" 10 dbX false false false false
      = (Outcome.resolved none,
         ⟨erasePrim dbX.prim "s" "k", eraseIdx dbX.index (compositeKey "s" "k")⟩) :=
  (c1_expired_get "s" "k" 10 dbX ⟨1, some 2, "s", "k"⟩ (by decide) (by decide)
    (Or.inr ⟨2, rfl, by omega⟩)).1

/-- C3 counterexample: the record at composite key `"s_k"` has a present
`validUntil = 0` equal to the current time 0, so by the claim it is not
expired and `get` should return the stored value and delete nothing; the
code treats the falsy number 0 like a missing field, classifies the
record as expired, returns absent and deletes the entry. -/
theorem c3_counterexample :
    lookupIdx dbZ.index (compositeKey "s" "k") = some ⟨0, some 0, "s", "k"⟩
    ∧ lookupPrim dbZ.prim "s" "k" = some (Value.payload "v")
    ∧ (get "s" "k" 0 dbZ).1 = none
    ∧ lookupPrim (get "s" "k" 0 dbZ).2.prim "s" "k" = none := by decide

/-- C3 (amended): for every ExpireRecord with a present NONZERO
`validUntil`, expiry is decided by strict comparison: `validUntil = now`
is not expired (`get` returns the stored value and deletes nothing),
`validUntil < now` is expired, and a sweep iteration applies the same
test; a record with a present `validUntil` of 0 is however classified as
expired at every time, because the check uses JavaScript falsiness. -/
theorem c3_strict_comparison (s k : String) (v now ts : Nat) (st ky : String) (db : DB)
    (hs : s ≠ "keysToExpire") (hv : v ≠ 0)
    (hr : lookupIdx db.index (compositeKey s k) = some ⟨ts, some v, st, ky⟩) :
    isExpiredAt ⟨ts, some v, st, ky⟩ now = decide (v < now)
    ∧ (¬ v < now → get s k now db = (lookupPrim db.prim s k, db))
    ∧ (v < now →
        (get s k now db).1 = none
        ∧ lookupIdx (get s k now db).2.index (compositeKey s k) = none
        ∧ lookupPrim (get s k now db).2.prim s k = none)
    ∧ (∀ ck r1, lookupIdx db.index ck = some r1 → r1.validUntil = some v →
        ¬ v < now → sweepStep now db ck = db) := by
  have he : isExpiredAt ⟨ts, some v, st, ky⟩ now = decide (v < now) := by
    simp [isExpiredAt, hv]
  refine ⟨he, ?_, ?_, ?_⟩
  · intro hlt
    have he0 : isExpiredAt ⟨ts, some v, st, ky⟩ now = false := by simp [he, hlt]
    simp [get, hs, hr, he0]
  · intro hlt
    have he1 : isExpiredAt ⟨ts, some v, st, ky⟩ now = true := by simp [he, hlt]
    refine ⟨?_, ?_, ?_⟩ <;>
      simp [get, hs, hr, he1, del, lookupIdx_eraseIdx, lookupPrim_erasePrim]
  · intro ck r1 h1 hv1 hlt
    have he2 : isExpiredAt r1 now = false := by
      simp [isExpiredAt, hv1, hv, hlt]
    simp [sweepStep, h1, he2]

theorem c3_strict_comparison_witness :
    isExpiredAt ⟨100, some 105, "s", "k"⟩ 105 = false
    ∧ get "s" "k" 105 dbW = (lookupPrim dbW.prim "s" "k", dbW) :=
  have h := c3_strict_comparison "s" "k" 105 105 100 "s" "k" dbW
    (by decide) (by decide) (by decide)
  ⟨h.1, h.2.1 (by omega)⟩

/-- C5 counterexample: the key `("s","k")` is most recently set with
`ttl = 0` (value `"v2"`), but the ExpireRecord left by the earlier
positive-TTL `set` is still in the Expire Index, and a later `get`
auto-removes the value and returns absent. -/
theorem c5_counterexample :
    lookupIdx db5.index (compositeKey "s" "k") = some ⟨100, some 105, "s", "k"⟩
    ∧ lookupPrim db5.prim "s" "k" = some (Value.payload "v2")
    ∧ (get "s" "k" 200 db5).1 = none
    ∧ lookupPrim (get "s" "k" 200 db5).2.prim "s" "k" = none := by decide

/-- C5 (amended): a key with no ExpireRecord at its composite key is read
transparently and never removed by the lazy check, `set` with `ttl = 0`
never creates an ExpireRecord, and the sweep leaves a key alone that no
ExpireRecord refers to; but `set` with `ttl = 0` does not delete a record
left by an earlier positive-TTL `set` of the same key, so such a key can
still be auto-removed once that stale record expires. -/
theorem c5_no_ttl_passthrough (s k : String) (now : Nat) (db : DB)
    (hs : s ≠ "keysToExpire")
    (hidx : lookupIdx db.index (compositeKey s k) = none)
    (hnoref : ∀ ck1 r1, lookupIdx db.index ck1 = some r1 →
        ¬(r1.store = s ∧ r1.key = k)) :
    get s k now db = (lookupPrim db.prim s k, db)
    ∧ (∀ v now2, (set s k v 0 now2 db).index = db.index)
    ∧ lookupPrim (sweepPass now db).prim s k = lookupPrim db.prim s k := by
  refine ⟨by simp [get, hs, hidx], ?_, ?_⟩
  · intro v now2
    simp [set]
  · exact sweepFold_prim_pres now s k (keysOfIndex db.index) db hnoref

theorem c5_no_ttl_passthrough_witness :
    get "s" "k" 7 DB.empty = (lookupPrim DB.empty.prim "s" "k", DB.empty)
    ∧ (set "s" "k" (Value.payload "w") 0 9 DB.empty).index = DB.empty.index
    ∧ lookupPrim (sweepPass 7 DB.empty).prim "s" "k"
        = lookupPrim DB.empty.prim "s" "k" :=
  have h := c5_no_ttl_passthrough "s" "k" 7 DB.empty (by decide) rfl
    (fun ck1 r1 h1 => Option.noConfusion h1)
  ⟨h.1, h.2.1 (Value.payload "w") 9, h.2.2⟩

/-- C9 counterexample: an expired read whose target-store deletion
transaction fails: the promise returned by `get` neither resolves nor
rejects (it stays pending forever), so it does not resolve to absent as
the claim states. -/
theorem c9_counterexample :
    lookupIdx dbX.index (compositeKey "s" "k") = some ⟨1, some 2, "s", "k"⟩
    ∧ isExpiredAt ⟨1, some 2, "s", "k"⟩ 10 = true
    ∧ (getAsync "s" "k" 10 dbX false false true false).1 = Outcome.pending := by
  decide

/-- C9 (amended): an expired `get` never rejects; it resolves to absent
whenever both deletions succeed, but when either deletion transaction
fails the promise never settles — it stays pending instead of resolving
to absent. -/
theorem c9_expired_get_outcome (s k : String) (now : Nat) (db : DB) (r : ExpireRecord)
    (f1 f2 f3 f4 : Bool)
    (hs : s ≠ "keysToExpire")
    (hr : lookupIdx db.index (compositeKey s k) = some r)
    (hexp : isExpiredAt r now = true) :
    (getAsync s k now db f1 f2 f3 f4).1 ≠ Outcome.rejected
    ∧ (f3 = false → f4 = false →
        (getAsync s k now db false f2 f3 f4).1 = Outcome.resolved none)
    ∧ ((f3 || f4) = true →
        (getAsync s k now db false f2 f3 f4).1 = Outcome.pending) := by
  refine ⟨?_, ?_, ?_⟩
  · cases f1 <;> cases f2 <;> cases f3 <;> cases f4 <;> simp [getAsync, hs, hr, hexp]
  · intro h3 h4
    subst h3; subst h4
    simp [getAsync, hs, hr, hexp]
  · intro h34
    simp [getAsync, hs, hr, hexp, h34]

theorem c9_expired_get_outcome_witness :
    (getAsync "s" "k" 10 dbX false false true false).1 = Outcome.pending :=
  (c9_expired_get_outcome "s" "k" 10 dbX ⟨1, some 2, "s", "k"⟩ false false true false
    (by decide) (by decide) (by decide)).2.2 rfl

/-- The fresh multi-database state: every database empty, the
`expireStore` singleton not yet created. -/
def sys0 : Sys := ⟨fun _ => DB.empty, none⟩

/-- A TTL write against database `"db1"` (creates the singleton). -/
def sys1 : Sys := setSys "db1" "s" "k1" (Value.payload "v1") 5 100 sys0

/-- A later TTL write against database `"db2"`. -/
def sys2 : Sys := setSys "db2" "s" "k2" (Value.payload "v2") 5 100 sys1

/-- C6: the Expire Index is NOT per-database in the code.  `expireStore`
is a module-level singleton, so after a first TTL write against `db1`, a
TTL write against a store of `db2` stores its value in `db2` but places
its ExpireRecord in `db1`'s Expire Index, while `db2`'s own
`keysToExpire` store stays empty: operations of two databases do write
each other's Expire Index. -/
theorem c6_singleton_expire_index :
    sys2.expireDb = some "db1"
    ∧ lookupPrim (sys2.dbs "db2").prim "s" "k2" = some (Value.payload "v2")
    ∧ lookupIdx (sys2.dbs "db2").index (compositeKey "s" "k2") = none
    ∧ lookupIdx (sys2.dbs "db1").index (compositeKey "s" "k2")
        = some ⟨100, some 105, "s", "k2"⟩ := by decide

/-- C7: the sweep timer period is 60 seconds; a pass enumerates the keys
of the Expire Index and, for each key holding a record that is expired at
the pass's timestamp (`validUntil` absent or `< now`), deletes the
referenced primary entry — located through the record's `store` and
`key` fields — and the record itself; a key whose record the expiry
check classifies as not expired is left untouched.  The hypothesis
`hsafe` says every record in the index references a primary store, not
the Expire Index itself. -/
theorem c7_sweep_pass (now : Nat) (db : DB) (ck : String) (r : ExpireRecord)
    (hsafe : ∀ ck1 r1, lookupIdx db.index ck1 = some r1 →
        r1.store ≠ "keysToExpire")
    (hr : lookupIdx db.index ck = some r) :
    sweepIntervalMs = 60000
    ∧ (r.validUntil = none ∨ (∃ v, r.validUntil = some v ∧ v < now) →
        lookupIdx (sweepPass now db).index ck = none
        ∧ lookupPrim (sweepPass now db).prim r.store r.key = none)
    ∧ (isExpiredAt r now = false →
        lookupIdx (sweepPass now db).index ck = some r) := by
  refine ⟨rfl, ?_, ?_⟩
  · intro hexp
    have he : isExpiredAt r now = true := by
      rcases hexp with h | ⟨v, hv, hlt⟩
      · simp [isExpiredAt, h]
      · simp [isExpiredAt, hv]
        exact Or.inr hlt
    exact sweepFold_removes now ck r he (keysOfIndex db.index) db hsafe
      (lookupIdx_mem_keys db.index ck r hr) hr
  · intro he
    exact sweepFold_keeps now ck r he (keysOfIndex db.index) db hsafe hr

theorem c7_sweep_pass_witness :
    sweepIntervalMs = 60000
    ∧ lookupIdx (sweepPass 10 dbS).index "s_k1" = none
    ∧ lookupPrim (sweepPass 10 dbS).prim "s" "k1" = none
    ∧ lookupIdx (sweepPass 10 dbS).index "s_k2" = some ⟨1, some 999, "s", "k2"⟩ := by
  have hsafe : ∀ ck1 r1, lookupIdx dbS.index ck1 = some r1 →
      r1.store ≠ "keysToExpire" := by
    intro ck1 r1 h
    simp only [dbS, lookupIdx] at h
    split at h
    · injection h with h2
      subst h2
      decide
    · split at h
      · injection h with h2
        subst h2
        decide
      · cases h
  have h1 := c7_sweep_pass 10 dbS "s_k1" ⟨1, some 2, "s", "k1"⟩ hsafe (by decide)
  have h2 := c7_sweep_pass 10 dbS "s_k2" ⟨1, some 999, "s", "k2"⟩ hsafe (by decide)
  exact ⟨h1.1, (h1.2.1 (Or.inr ⟨2, rfl, by omega⟩)).1,
         (h1.2.1 (Or.inr ⟨2, rfl, by omega⟩)).2, h2.2.2 (by decide)⟩

end IdbKeyval
